import Mathlib

/-!
Verification of the Space Mission Control service (FastAPI + Pydantic demo).

This file gives a shallow embedding of `models.py` (the three Pydantic models
and their validators) and `main.py` (the in-memory stores, the identifier
counters and the request handlers), and proves the documented properties of
the validation layer, the business-rule engine and the repository.

Conventions of the embedding:
* Python `str` is modelled as `List Char`; `len` is `List.length`.
* Python `int` is `Int` (unbounded).
* Python `datetime` is modelled as an instant (`Int`, an ordering key such as
  a microsecond timestamp) together with an awareness flag, because comparing
  an offset-aware with an offset-naive datetime raises `TypeError` in Python.
* A Pydantic field validator is a function returning `Except String v`
  (`.error` models `raise ValueError(...)`, which Pydantic converts into a
  field-level validation error); the launch-date validator returns the richer
  `PyResult`, whose `raised` constructor models an exception that Pydantic v2
  does **not** convert (any exception other than `ValueError` or
  `AssertionError` propagates out of validation).
* The insertion-ordered Python `dict` keyed by `int` is an association list.
-/

namespace MissionControl

/-- Whitespace test used by Python `str.strip()` (ASCII approximation). -/
def pyIsSpace (c : Char) : Bool := c.isWhitespace

/-- Python `str.strip()`: drop whitespace from both ends. -/
def pyStrip (s : List Char) : List Char :=
  ((s.dropWhile pyIsSpace).reverse.dropWhile pyIsSpace).reverse

/-- Helper for `pyTitle`: `prevAlpha` says whether the previous character was
a letter (Python capitalises a letter exactly when the previous character is
not cased). -/
def pyTitleGo : Bool → List Char → List Char
  | _, [] => []
  | prevAlpha, c :: rest =>
      (if prevAlpha then c.toLower else c.toUpper) :: pyTitleGo c.isAlpha rest

/-- Python `str.title()` (ASCII approximation). -/
def pyTitle (s : List Char) : List Char := pyTitleGo false s

/-- Python `datetime`: an instant plus the offset-awareness flag. -/
structure PyDatetime where
  t : Int
  aware : Bool
deriving DecidableEq

/-- Python `datetime.now()` returns an offset-naive datetime. -/
def pyNow (t : Int) : PyDatetime := ⟨t, false⟩

/-- Python `<` on datetimes: comparing an offset-naive with an offset-aware
datetime raises `TypeError`. -/
def pyDatetimeLt (a b : PyDatetime) : Except String Bool :=
  if a.aware ≠ b.aware then
    Except.error ("TypeError: cannot compare offset-naive and offset-aware datetimes")
  else
    Except.ok (decide (a.t < b.t))

/-- Outcome of running a Python validator: normal return, `ValueError`
(converted by Pydantic into a field error), or any other raised exception
(which Pydantic v2 lets propagate). -/
inductive PyResult (α : Type) where
  | ok (a : α)
  | valueError (msg : String)
  | raised (msg : String)
deriving DecidableEq

/-- The enumeration `Literal["pilot", "engineer", "scientist", "medic", "commander"]`. -/
inductive Specialization where
  | pilot | engineer | scientist | medic | commander
deriving DecidableEq

/-- The enumeration `Literal["planning", "active", "completed", "cancelled"]`. -/
inductive MissionStatus where
  | planning | active | completed | cancelled
deriving DecidableEq

/-- The enumeration `Literal["commander", "pilot", "engineer", "scientist", "medic", "specialist"]`. -/
inductive CrewRole where
  | commander | pilot | engineer | scientist | medic | specialist
deriving DecidableEq

/-- The `Astronaut` Pydantic model: the same shape serves as the well-typed
candidate (pre-validation field values) and as the validated record. -/
structure Astronaut where
  id : Option Int
  name : List Char
  age : Int
  email : List Char
  specialization : Specialization
  years_of_experience : Int
  active : Bool
deriving DecidableEq

/-- The `Mission` Pydantic model. -/
structure Mission where
  id : Option Int
  name : List Char
  destination : List Char
  duration_days : Int
  status : MissionStatus
  launch_date : Option PyDatetime
  crew_capacity : Int
  current_crew_count : Int
deriving DecidableEq

/-- The `CrewAssignment` request body model. -/
structure CrewAssignment where
  astronaut_id : Int
  mission_id : Int
  role : CrewRole
deriving DecidableEq

/-- One field-level violation: the field name and the reason. -/
structure FieldError where
  field : String
  reason : String
deriving DecidableEq

/-- Collect the field error (if any) produced by one field check. -/
def errsOf (field : String) : Except String α → List FieldError
  | Except.error msg => [⟨field, msg⟩]
  | Except.ok _ => []

/-! ### Astronaut field checks (models.py, class Astronaut) -/

/-- Validator `name_must_not_contain_numbers` (models.py): reject digits, return the
stripped name. -/
def name_must_not_contain_numbers (v : List Char) : Except String (List Char) :=
  if v.any Char.isDigit then Except.error ("Name cannot contain numbers")
  else Except.ok (pyStrip v)

/-- Validator `experience_must_be_reasonable_for_age` (models.py): `info.data.get('age')`
is `none` when the age field itself failed validation; Python truthiness also
skips the check when `age == 0`. -/
def experience_must_be_reasonable_for_age (v : Int) (ageData : Option Int) :
    Except String Int :=
  match ageData with
  | some a =>
      if a ≠ 0 ∧ v > a - 18 then
        Except.error ("Experience years cannot exceed age minus 18")
      else Except.ok v
  | none => Except.ok v

/-- The `name` field: `Field(min_length=2, max_length=100)` on the submitted
value, then the custom validator. -/
def astronautNameField (v : List Char) : Except String (List Char) :=
  if v.length < 2 then Except.error ("String should have at least 2 characters")
  else if v.length > 100 then Except.error ("String should have at most 100 characters")
  else name_must_not_contain_numbers v

/-- The `age` field: `Field(ge=21, le=65)`. -/
def astronautAgeField (v : Int) : Except String Int :=
  if v < 21 then Except.error ("Input should be greater than or equal to 21")
  else if v > 65 then Except.error ("Input should be less than or equal to 65")
  else Except.ok v

/-- Modelled from the spec: `EmailStr` — "email (must match standard email
syntax)". The `email-validator` library is not part of src; this is a simple
syntactic stand-in (exactly one at-sign, nonempty local part, domain that
contains a dot). No claim depends on its exact acceptance set. -/
def emailValid (v : List Char) : Bool :=
  let localPart := v.takeWhile (fun c => c ≠ '@')
  let afterAt := (v.dropWhile (fun c => c ≠ '@')).drop 1
  v.count '@' == 1 && localPart.length > 0 && afterAt.length > 0 &&
    afterAt.contains '.'

/-- The `email` field: `EmailStr`. -/
def astronautEmailField (v : List Char) : Except String (List Char) :=
  if emailValid v then Except.ok v
  else Except.error ("value is not a valid email address")

/-- The `years_of_experience` field: `Field(ge=0, le=40)`, then the custom
validator reading `age` from `info.data`. -/
def astronautExperienceField (v : Int) (ageData : Option Int) : Except String Int :=
  if v < 0 then Except.error ("Input should be greater than or equal to 0")
  else if v > 40 then Except.error ("Input should be less than or equal to 40")
  else experience_must_be_reasonable_for_age v ageData

/-- Validation of an `Astronaut` candidate: fields are checked in declaration
order, all field errors are collected, and `info.data` holds only the fields
that validated successfully (so the experience check sees `age` only when the
age field passed). -/
def validateAstronaut (c : Astronaut) : Except (List FieldError) Astronaut :=
  let nameR := astronautNameField c.name
  let ageR := astronautAgeField c.age
  let emailR := astronautEmailField c.email
  let expR := astronautExperienceField c.years_of_experience ageR.toOption
  match nameR, ageR, emailR, expR with
  | Except.ok n, Except.ok a, Except.ok e, Except.ok x =>
      Except.ok ⟨c.id, n, a, e, c.specialization, x, c.active⟩
  | _, _, _, _ =>
      Except.error (errsOf ("name") nameR ++ errsOf ("age") ageR ++
        errsOf ("email") emailR ++ errsOf ("years_of_experience") expR)

/-! ### Mission field checks (models.py, class Mission) -/

/-- Validator `name_must_be_capitalized` (models.py): `v.strip().title()`, never fails. -/
def name_must_be_capitalized (v : List Char) : Except String (List Char) :=
  Except.ok (pyTitle (pyStrip v))

/-- Validator `crew_count_cannot_exceed_capacity` (models.py): `info.data.get('crew_capacity')`
is `none` when the capacity field failed; Python truthiness also skips the
check when `crew_capacity == 0`. -/
def crew_count_cannot_exceed_capacity (v : Int) (capData : Option Int) :
    Except String Int :=
  match capData with
  | some cap =>
      if cap ≠ 0 ∧ v > cap then
        Except.error ("Current crew count cannot exceed capacity")
      else Except.ok v
  | none => Except.ok v

/-- Validator `launch_date_must_be_future` (models.py): `if v and v < datetime.now()`.
A datetime is always truthy; the comparison itself can raise `TypeError`. -/
def launch_date_must_be_future (v : Option PyDatetime) (nowT : Int) :
    PyResult (Option PyDatetime) :=
  match v with
  | none => PyResult.ok none
  | some d =>
      match pyDatetimeLt d (pyNow nowT) with
      | Except.error msg => PyResult.raised msg
      | Except.ok true => PyResult.valueError ("Launch date must be in the future")
      | Except.ok false => PyResult.ok (some d)

/-- The mission `name` field: `Field(min_length=3, max_length=100)`, then the
custom validator. -/
def missionNameField (v : List Char) : Except String (List Char) :=
  if v.length < 3 then Except.error ("String should have at least 3 characters")
  else if v.length > 100 then Except.error ("String should have at most 100 characters")
  else name_must_be_capitalized v

/-- The `destination` field: `Field(min_length=3, max_length=100)`. -/
def missionDestinationField (v : List Char) : Except String (List Char) :=
  if v.length < 3 then Except.error ("String should have at least 3 characters")
  else if v.length > 100 then Except.error ("String should have at most 100 characters")
  else Except.ok v

/-- The `duration_days` field: `Field(ge=1, le=1000)`. -/
def missionDurationField (v : Int) : Except String Int :=
  if v < 1 then Except.error ("Input should be greater than or equal to 1")
  else if v > 1000 then Except.error ("Input should be less than or equal to 1000")
  else Except.ok v

/-- The `crew_capacity` field: `Field(ge=1, le=10)`. -/
def missionCapacityField (v : Int) : Except String Int :=
  if v < 1 then Except.error ("Input should be greater than or equal to 1")
  else if v > 10 then Except.error ("Input should be less than or equal to 10")
  else Except.ok v

/-- The `current_crew_count` field: `Field(ge=0)`, then the custom validator
reading `crew_capacity` from `info.data`. -/
def missionCountField (v : Int) (capData : Option Int) : Except String Int :=
  if v < 0 then Except.error ("Input should be greater than or equal to 0")
  else crew_count_cannot_exceed_capacity v capData

/-- Overall outcome of validating one Mission candidate. -/
inductive Validated (α : Type) where
  | ok (a : α)
  | invalid (errs : List FieldError)
  | raised (msg : String)
deriving DecidableEq

/-- Validation of a `Mission` candidate at validation time `nowT`. Fields are
checked in declaration order and all field errors collected, except that an
exception other than `ValueError` inside the launch-date validator propagates
immediately (Pydantic v2 converts only `ValueError`/`AssertionError`). -/
def validateMission (nowT : Int) (c : Mission) : Validated Mission :=
  let nameR := missionNameField c.name
  let destR := missionDestinationField c.destination
  let durR := missionDurationField c.duration_days
  match launch_date_must_be_future c.launch_date nowT with
  | PyResult.raised msg => Validated.raised msg
  | PyResult.valueError msg =>
      let capR := missionCapacityField c.crew_capacity
      let countR := missionCountField c.current_crew_count capR.toOption
      Validated.invalid (errsOf ("name") nameR ++ errsOf ("destination") destR ++
        errsOf ("duration_days") durR ++ [⟨"launch_date", msg⟩] ++
        errsOf ("crew_capacity") capR ++ errsOf ("current_crew_count") countR)
  | PyResult.ok ld =>
      let capR := missionCapacityField c.crew_capacity
      let countR := missionCountField c.current_crew_count capR.toOption
      match nameR, destR, durR, capR, countR with
      | Except.ok n, Except.ok de, Except.ok du, Except.ok cap, Except.ok cnt =>
          Validated.ok ⟨c.id, n, de, du, c.status, ld, cap, cnt⟩
      | _, _, _, _, _ =>
          Validated.invalid (errsOf ("name") nameR ++ errsOf ("destination") destR ++
            errsOf ("duration_days") durR ++ errsOf ("crew_capacity") capR ++
            errsOf ("current_crew_count") countR)

/-- Validation of a `CrewAssignment` body: `Field(ge=1)` on both identifiers. -/
def validateCrewAssignment (c : CrewAssignment) : Except (List FieldError) CrewAssignment :=
  let errs :=
    (if c.astronaut_id < 1 then [(⟨"astronaut_id", "Input should be greater than or equal to 1"⟩ : FieldError)] else []) ++
    (if c.mission_id < 1 then [(⟨"mission_id", "Input should be greater than or equal to 1"⟩ : FieldError)] else [])
  match errs with
  | [] => Except.ok c
  | es => Except.error es

/-! ### The in-memory store (main.py module state) -/

/-- Lookup in an insertion-ordered association list (Python `d[k]` / `k in d`). -/
def lookupDb (db : List (Int × α)) (k : Int) : Option α :=
  match db with
  | [] => none
  | (k2, v) :: rest => if k2 = k then some v else lookupDb rest k

/-- Python `d[k] = v`: replace in place when the key is present, append otherwise. -/
def dbSet (db : List (Int × α)) (k : Int) (v : α) : List (Int × α) :=
  match db with
  | [] => [(k, v)]
  | (k2, v2) :: rest => if k2 = k then (k, v) :: rest else (k2, v2) :: dbSet rest k v

/-- Python `del d[k]`. -/
def dbErase (db : List (Int × α)) (k : Int) : List (Int × α) :=
  match db with
  | [] => []
  | (k2, v2) :: rest => if k2 = k then rest else (k2, v2) :: dbErase rest k

/-- A stored crew-assignment record, with the denormalized display names
captured at creation time (main.py, `crew_assignments.append({...})`). -/
structure AssignmentRec where
  astronaut_id : Int
  mission_id : Int
  role : CrewRole
  astronaut_name : List Char
  mission_name : List Char
deriving DecidableEq

/-- The module-level mutable state of main.py: `astronauts_db`, `missions_db`,
`crew_assignments`, `astronaut_id_counter`, `mission_id_counter`. -/
structure SysState where
  astronauts_db : List (Int × Astronaut)
  missions_db : List (Int × Mission)
  crew_assignments : List AssignmentRec
  astronaut_id_counter : Int
  mission_id_counter : Int
deriving DecidableEq

/-- The state at process start: empty stores, both counters at 1. -/
def initState : SysState := ⟨[], [], [], 1, 1⟩

/-! ### Handlers (main.py) -/

/-- Handler `create_astronaut` (main.py): assign the counter as id, increment the
counter, store, return the stored record. Runs after body validation. -/
def create_astronaut (a : Astronaut) (s : SysState) : Astronaut × SysState :=
  let a2 := { a with id := some s.astronaut_id_counter }
  (a2, { s with
          astronauts_db := dbSet s.astronauts_db s.astronaut_id_counter a2,
          astronaut_id_counter := s.astronaut_id_counter + 1 })

/-- Handler `update_astronaut` (main.py): `none` models the 404 branch; otherwise the
id is force-set to the path parameter and the record replaced wholesale. -/
def update_astronaut (aid : Int) (a : Astronaut) (s : SysState) :
    Option (Astronaut × SysState) :=
  match lookupDb s.astronauts_db aid with
  | none => none
  | some _ =>
      let a2 := { a with id := some aid }
      some (a2, { s with astronauts_db := dbSet s.astronauts_db aid a2 })

/-- Handler `delete_astronaut` (main.py): `none` models the 404 branch. -/
def delete_astronaut (aid : Int) (s : SysState) : Option SysState :=
  match lookupDb s.astronauts_db aid with
  | none => none
  | some _ => some { s with astronauts_db := dbErase s.astronauts_db aid }

/-- Handler `create_mission` (main.py). -/
def create_mission (m : Mission) (s : SysState) : Mission × SysState :=
  let m2 := { m with id := some s.mission_id_counter }
  (m2, { s with
          missions_db := dbSet s.missions_db s.mission_id_counter m2,
          mission_id_counter := s.mission_id_counter + 1 })

/-- Handler `update_mission` (main.py). -/
def update_mission (mid : Int) (m : Mission) (s : SysState) :
    Option (Mission × SysState) :=
  match lookupDb s.missions_db mid with
  | none => none
  | some _ =>
      let m2 := { m with id := some mid }
      some (m2, { s with missions_db := dbSet s.missions_db mid m2 })

/-- The distinct error exits of `assign_crew_to_mission`, one constructor per
`raise HTTPException` site, carrying the data interpolated into the detail. -/
inductive AssignError where
  | idMismatch
  | missionNotFound (mid : Int)
  | astronautNotFound (aid : Int)
  | astronautInactive (name : List Char)
  | atCapacity (missionName : List Char)
  | alreadyAssigned (name : List Char)
deriving DecidableEq

/-- HTTP status of each error exit of `assign_crew_to_mission`. -/
def assignErrorStatus : AssignError → Nat
  | AssignError.idMismatch => 400
  | AssignError.missionNotFound _ => 404
  | AssignError.astronautNotFound _ => 404
  | AssignError.astronautInactive _ => 400
  | AssignError.atCapacity _ => 400
  | AssignError.alreadyAssigned _ => 400

/-- The spec error taxonomy (spec.md section 7) classifies duplicate
assignment, capacity exceeded and inactive-crew-member errors as
`ConflictError`; the path/body mismatch is the `IdentityMismatch` error and
the two missing-identifier exits are `NotFound`. -/
def isConflictError : AssignError → Bool
  | AssignError.astronautInactive _ => true
  | AssignError.atCapacity _ => true
  | AssignError.alreadyAssigned _ => true
  | _ => false

/-- The `NotFound` classification of the error exits (spec.md section 7). -/
def isNotFoundError : AssignError → Bool
  | AssignError.missionNotFound _ => true
  | AssignError.astronautNotFound _ => true
  | _ => false

/-- The success payload of `assign_crew_to_mission` (the constant message
text and the string formatting of the crew-count fraction are incidental
response shaping and are kept as the underlying data). -/
structure AssignOk where
  astronaut : List Char
  mission : List Char
  role : CrewRole
  crew_count : Int
  crew_capacity : Int
deriving DecidableEq

/-- Handler `assign_crew_to_mission` (main.py): the path/body mismatch gate, then the
five business checks in source order, then the append and the count
increment. Runs after body validation. -/
def assign_crew_to_mission (mission_id : Int) (assignment : CrewAssignment)
    (s : SysState) : Except AssignError AssignOk × SysState :=
  if mission_id ≠ assignment.mission_id then
    (Except.error AssignError.idMismatch, s)
  else
    match lookupDb s.missions_db mission_id with
    | none => (Except.error (AssignError.missionNotFound mission_id), s)
    | some mission =>
        match lookupDb s.astronauts_db assignment.astronaut_id with
        | none => (Except.error (AssignError.astronautNotFound assignment.astronaut_id), s)
        | some astronaut =>
            if astronaut.active = false then
              (Except.error (AssignError.astronautInactive astronaut.name), s)
            else if mission.current_crew_count ≥ mission.crew_capacity then
              (Except.error (AssignError.atCapacity mission.name), s)
            else if s.crew_assignments.any (fun r =>
                r.astronaut_id == assignment.astronaut_id && r.mission_id == mission_id) then
              (Except.error (AssignError.alreadyAssigned astronaut.name), s)
            else
              let rec2 : AssignmentRec :=
                ⟨assignment.astronaut_id, mission_id, assignment.role,
                  astronaut.name, mission.name⟩
              let mission2 := { mission with
                current_crew_count := mission.current_crew_count + 1 }
              (Except.ok ⟨astronaut.name, mission.name, assignment.role,
                  mission.current_crew_count + 1, mission.crew_capacity⟩,
                { s with
                    crew_assignments := s.crew_assignments ++ [rec2],
                    missions_db := dbSet s.missions_db mission_id mission2 })

/-- The Business Rule Engine as worded by spec.md section 4.3:
`assign(missionId, astronautId, role)` evaluates, in order, and stops at the
first failure: (1) referenced mission exists; (2) referenced crew member
exists; (3) crew member's active flag is true; (4) mission's current crew
count is strictly less than capacity; (5) no existing assignment already
links this crew member and this mission; on success it appends the
assignment and increments the mission's current crew count. -/
def ruleEngineAssign (missionId astronautId : Int) (role : CrewRole)
    (s : SysState) : Except AssignError AssignOk × SysState :=
  match lookupDb s.missions_db missionId with
  | none => (Except.error (AssignError.missionNotFound missionId), s)
  | some mission =>
      match lookupDb s.astronauts_db astronautId with
      | none => (Except.error (AssignError.astronautNotFound astronautId), s)
      | some crewMember =>
          if crewMember.active then
            if mission.current_crew_count < mission.crew_capacity then
              if (s.crew_assignments.filter (fun r =>
                  r.astronaut_id == astronautId && r.mission_id == missionId)) = [] then
                let appended : AssignmentRec :=
                  ⟨astronautId, missionId, role, crewMember.name, mission.name⟩
                (Except.ok ⟨crewMember.name, mission.name, role,
                    mission.current_crew_count + 1, mission.crew_capacity⟩,
                  { s with
                      crew_assignments := s.crew_assignments ++ [appended],
                      missions_db := dbSet s.missions_db missionId
                        { mission with
                            current_crew_count := mission.current_crew_count + 1 } })
              else (Except.error (AssignError.alreadyAssigned crewMember.name), s)
            else (Except.error (AssignError.atCapacity mission.name), s)
          else (Except.error (AssignError.astronautInactive crewMember.name), s)

/-! ### The full request pipeline: body validation, then handler -/

/-- One mutating request. Read-only endpoints do not touch the state and are
irrelevant to the store invariants. `createMission`/`updateMission` carry the
validation-time clock value read by the launch-date validator. -/
inductive Op where
  | createAstronaut (c : Astronaut)
  | updateAstronaut (aid : Int) (c : Astronaut)
  | deleteAstronaut (aid : Int)
  | createMission (nowT : Int) (c : Mission)
  | updateMission (nowT : Int) (mid : Int) (c : Mission)
  | assignCrew (pathMissionId : Int) (body : CrewAssignment)
deriving DecidableEq

/-- The response of one mutating request. -/
inductive Resp where
  | astronautRec (a : Astronaut)
  | missionRec (m : Mission)
  | noContent
  | assignOk (r : AssignOk)
  | validationFailed (errs : List FieldError)
  | notFound
  | assignFailed (e : AssignError)
  | serverError (msg : String)
deriving DecidableEq

/-- Process one request: FastAPI validates the body first (a validation
failure is a 422 and the handler never runs), then the handler of main.py
executes against the store. -/
def apply (o : Op) (s : SysState) : Resp × SysState :=
  match o with
  | Op.createAstronaut c =>
      match validateAstronaut c with
      | Except.error errs => (Resp.validationFailed errs, s)
      | Except.ok a =>
          let p := create_astronaut a s
          (Resp.astronautRec p.1, p.2)
  | Op.updateAstronaut aid c =>
      match validateAstronaut c with
      | Except.error errs => (Resp.validationFailed errs, s)
      | Except.ok a =>
          match update_astronaut aid a s with
          | none => (Resp.notFound, s)
          | some p => (Resp.astronautRec p.1, p.2)
  | Op.deleteAstronaut aid =>
      match delete_astronaut aid s with
      | none => (Resp.notFound, s)
      | some s2 => (Resp.noContent, s2)
  | Op.createMission nowT c =>
      match validateMission nowT c with
      | Validated.raised msg => (Resp.serverError msg, s)
      | Validated.invalid errs => (Resp.validationFailed errs, s)
      | Validated.ok m =>
          let p := create_mission m s
          (Resp.missionRec p.1, p.2)
  | Op.updateMission nowT mid c =>
      match validateMission nowT c with
      | Validated.raised msg => (Resp.serverError msg, s)
      | Validated.invalid errs => (Resp.validationFailed errs, s)
      | Validated.ok m =>
          match update_mission mid m s with
          | none => (Resp.notFound, s)
          | some p => (Resp.missionRec p.1, p.2)
  | Op.assignCrew pathMissionId body =>
      match validateCrewAssignment body with
      | Except.error errs => (Resp.validationFailed errs, s)
      | Except.ok b =>
          match assign_crew_to_mission pathMissionId b s with
          | (Except.ok r, s2) => (Resp.assignOk r, s2)
          | (Except.error e, s2) => (Resp.assignFailed e, s2)

/-- Run a list of requests from a state. -/
def run (ops : List Op) (s : SysState) : SysState :=
  match ops with
  | [] => s
  | o :: rest => run rest (apply o s).2

/-- The astronaut identifiers handed out by successful create requests along
a trace, in order. -/
def astroIdsAssigned (ops : List Op) (s : SysState) : List Int :=
  match ops with
  | [] => []
  | o :: rest =>
      let p := apply o s
      (match o, p.1 with
       | Op.createAstronaut _, Resp.astronautRec a =>
           (match a.id with
            | some i => [i]
            | none => [])
       | _, _ => []) ++ astroIdsAssigned rest p.2

/-- The mission identifiers handed out by successful create requests along a
trace, in order. -/
def missionIdsAssigned (ops : List Op) (s : SysState) : List Int :=
  match ops with
  | [] => []
  | o :: rest =>
      let p := apply o s
      (match o, p.1 with
       | Op.createMission _ _, Resp.missionRec m =>
           (match m.id with
            | some i => [i]
            | none => [])
       | _, _ => []) ++ missionIdsAssigned rest p.2

/-- The list `[start, start + 1, ..., start + k - 1]`. -/
def intRange (start : Int) : Nat → List Int
  | 0 => []
  | k + 1 => start :: intRange (start + 1) k

/-! ### Helper lemmas about the store primitives -/

theorem lookupDb_dbSet_self (db : List (Int × α)) (k : Int) (v : α) :
    lookupDb (dbSet db k v) k = some v := by
  induction db with
  | nil => simp [dbSet, lookupDb]
  | cons p rest ih =>
      by_cases h : p.1 = k
      · simp [dbSet, lookupDb, h]
      · simp [dbSet, lookupDb, h, ih]

theorem lookupDb_dbSet_ne (db : List (Int × α)) (k k2 : Int) (v : α)
    (h : k ≠ k2) : lookupDb (dbSet db k v) k2 = lookupDb db k2 := by
  induction db with
  | nil => simp [dbSet, lookupDb, h]
  | cons p rest ih =>
      by_cases hp : p.1 = k
      · simp [dbSet, lookupDb, hp, h, ih]
      · simp only [dbSet, hp, if_false, lookupDb]
        by_cases hp2 : p.1 = k2 <;> simp [hp2, ih]

theorem mem_dbSet (db : List (Int × α)) (k : Int) (v : α) (p : Int × α)
    (h : p ∈ dbSet db k v) : p = (k, v) ∨ p ∈ db := by
  induction db with
  | nil => simpa [dbSet] using h
  | cons q rest ih =>
      by_cases hq : q.1 = k
      · simp only [dbSet, hq, if_true] at h
        rcases List.mem_cons.mp h with h1 | h1
        · exact Or.inl h1
        · exact Or.inr (List.mem_cons_of_mem _ h1)
      · simp only [dbSet, hq, if_false] at h
        rcases List.mem_cons.mp h with h1 | h1
        · exact Or.inr (h1 ▸ List.mem_cons_self _ _)
        · rcases ih h1 with h2 | h2
          · exact Or.inl h2
          · exact Or.inr (List.mem_cons_of_mem _ h2)

theorem mem_dbErase (db : List (Int × α)) (k : Int) (p : Int × α)
    (h : p ∈ dbErase db k) : p ∈ db := by
  induction db with
  | nil => simp [dbErase] at h
  | cons q rest ih =>
      by_cases hq : q.1 = k
      · simp only [dbErase, hq, if_true] at h
        exact List.mem_cons_of_mem _ h
      · simp only [dbErase, hq, if_false] at h
        rcases List.mem_cons.mp h with h1 | h1
        · exact h1 ▸ List.mem_cons_self _ _
        · exact List.mem_cons_of_mem _ (ih h1)

theorem lookupDb_mem (db : List (Int × α)) (k : Int) (v : α)
    (h : lookupDb db k = some v) : (k, v) ∈ db := by
  induction db with
  | nil => simp [lookupDb] at h
  | cons q rest ih =>
      by_cases hq : q.1 = k
      · simp only [lookupDb, hq, if_true, Option.some.injEq] at h
        subst h
        have : q = (k, q.2) := by
          cases q; simp_all
        rw [← hq]
        exact this ▸ List.mem_cons_self _ _
      · simp only [lookupDb, hq, if_false] at h
        exact List.mem_cons_of_mem _ (ih h)

/-! ### Helper lemmas about `pyStrip` and `intRange` -/

theorem pyStrip_sublist (s : List Char) : (pyStrip s).Sublist s := by
  unfold pyStrip
  have h1 : ((s.dropWhile pyIsSpace).reverse.dropWhile pyIsSpace).Sublist
      (s.dropWhile pyIsSpace).reverse := List.dropWhile_sublist _
  have h2 : ((s.dropWhile pyIsSpace).reverse.dropWhile pyIsSpace).reverse.Sublist
      (s.dropWhile pyIsSpace) := by
    simpa using h1.reverse
  exact h2.trans (List.dropWhile_sublist _)

theorem pyStrip_length_le (s : List Char) : (pyStrip s).length ≤ s.length :=
  (pyStrip_sublist s).length_le

theorem mem_pyStrip (s : List Char) (c : Char) (h : c ∈ pyStrip s) : c ∈ s :=
  (pyStrip_sublist s).mem h

theorem intRange_lb : ∀ (k : Nat) (start i : Int), i ∈ intRange start k → start ≤ i := by
  intro k
  induction k with
  | zero => intro start i h; simp [intRange] at h
  | succ n ih =>
      intro start i h
      rcases List.mem_cons.mp h with h1 | h1
      · omega
      · have := ih (start + 1) i h1
        omega

theorem intRange_pairwise : ∀ (k : Nat) (start : Int),
    (intRange start k).Pairwise (· < ·) := by
  intro k
  induction k with
  | zero => intro start; simp [intRange]
  | succ n ih =>
      intro start
      refine List.pairwise_cons.mpr ⟨?_, ih (start + 1)⟩
      intro i hi
      have := intRange_lb n (start + 1) i hi
      omega

/-! ### C1: check order of the assign operation -/

/-- C1. For every assign request whose path and body mission identifiers
agree, the handler `assign_crew_to_mission` of main.py computes exactly the
Business Rule Engine of spec.md section 4.3: it evaluates, in order, and
stops at the first failure, (1) mission exists, (2) crew member exists,
(3) crew member active, (4) current crew count strictly below capacity,
(5) the (crew member, mission) pair not already linked by an assignment; and
only when all five pass does it append the assignment and increment the
mission's current crew count. -/
theorem assign_matches_rule_engine (mid : Int) (asg : CrewAssignment)
    (s : SysState) (h : mid = asg.mission_id) :
    assign_crew_to_mission mid asg s =
      ruleEngineAssign mid asg.astronaut_id asg.role s := by
  subst h
  unfold assign_crew_to_mission ruleEngineAssign
  rw [if_neg (fun hc => hc rfl)]
  cases hm : lookupDb s.missions_db asg.mission_id with
  | none => rfl
  | some mission =>
      dsimp only
      cases ha : lookupDb s.astronauts_db asg.astronaut_id with
      | none => rfl
      | some astronaut =>
          dsimp only
          by_cases hact : astronaut.active
          · rw [if_neg (by simp [hact]), if_pos hact]
            by_cases hcap : mission.current_crew_count ≥ mission.crew_capacity
            · rw [if_pos hcap, if_neg (not_lt.mpr hcap)]
            · rw [if_neg hcap, if_pos (lt_of_not_ge hcap)]
              by_cases hdup : s.crew_assignments.any (fun r =>
                  r.astronaut_id == asg.astronaut_id &&
                    r.mission_id == asg.mission_id) = true
              · rw [if_pos hdup, if_neg ?_]
                intro hfilt
                rcases List.any_eq_true.mp hdup with ⟨r, hr, hpr⟩
                have := List.filter_eq_nil_iff.mp hfilt r hr
                exact this hpr
              · rw [if_neg (by simp [hdup]), if_pos ?_]
                apply List.filter_eq_nil_iff.mpr
                intro r hr hpr
                exact (by simp [hdup] : ¬s.crew_assignments.any (fun r =>
                  r.astronaut_id == asg.astronaut_id &&
                    r.mission_id == asg.mission_id) = true)
                  (List.any_eq_true.mpr ⟨r, hr, hpr⟩)
          · rw [if_pos (by simpa using hact), if_neg hact]

/-- Witness for `assign_matches_rule_engine` at a concrete request and
store. -/
theorem assign_matches_rule_engine_witness :
    assign_crew_to_mission 1 ⟨1, 1, CrewRole.pilot⟩
        ⟨[(1, ⟨some 1, [], 35, [], Specialization.pilot, 12, true⟩)],
          [(1, ⟨some 1, [], [], 180, MissionStatus.planning, none, 2, 0⟩)],
          [], 2, 2⟩ =
      ruleEngineAssign 1 1 CrewRole.pilot
        ⟨[(1, ⟨some 1, [], 35, [], Specialization.pilot, 12, true⟩)],
          [(1, ⟨some 1, [], [], 180, MissionStatus.planning, none, 2, 0⟩)],
          [], 2, 2⟩ :=
  assign_matches_rule_engine 1 ⟨1, 1, CrewRole.pilot⟩ _ rfl

/-! ### Concrete fixtures used by witnesses -/

/-- A valid stored astronaut (the Sarah Connor example of models.py). -/
def astroFix : Astronaut :=
  ⟨some 1, ("Sarah Connor").toList, 35, ("sarah.connor@nasa.space").toList,
    Specialization.pilot, 12, true⟩

/-- A valid stored mission with capacity 2 and no crew yet. -/
def missionFix : Mission :=
  ⟨some 1, ("Mars Odyssey").toList, ("Mars").toList, 180,
    MissionStatus.planning, none, 2, 0⟩

/-- A store holding `astroFix` and `missionFix`, both counters at 2. -/
def stateFix : SysState := ⟨[(1, astroFix)], [(1, missionFix)], [], 2, 2⟩

/-- The state `stateFix` after successfully assigning astronaut 1 to mission 1. -/
def stateFix2 : SysState :=
  ⟨[(1, astroFix)], [(1, { missionFix with current_crew_count := 1 })],
    [⟨1, 1, CrewRole.pilot, astroFix.name, missionFix.name⟩], 2, 2⟩

/-! ### C4: path/body mission identifier mismatch -/

/-- C4. When the path mission identifier differs from the body's, the assign
operation fails with the identity-mismatch error — a distinct exit that is
not one of the NotFound exits — and the state is returned unchanged. The
result is this same error for **every** store contents (the equation holds
for all `s`), so no repository existence lookup influences the outcome. -/
theorem assign_mismatch_rejected (mid : Int) (asg : CrewAssignment)
    (s : SysState) (h : mid ≠ asg.mission_id) :
    assign_crew_to_mission mid asg s = (Except.error AssignError.idMismatch, s) ∧
      isNotFoundError AssignError.idMismatch = false := by
  constructor
  · unfold assign_crew_to_mission
    rw [if_pos h]
  · rfl

/-- Witness for `assign_mismatch_rejected`: path mission 2 against a body
naming mission 1, on a store where mission 2 does not even exist. -/
theorem assign_mismatch_rejected_witness :
    assign_crew_to_mission 2 ⟨1, 1, CrewRole.pilot⟩ stateFix =
        (Except.error AssignError.idMismatch, stateFix) ∧
      isNotFoundError AssignError.idMismatch = false :=
  assign_mismatch_rejected 2 ⟨1, 1, CrewRole.pilot⟩ stateFix (by decide)

/-! ### C3: a second assignment of the same pair is a conflict -/

/-- C3. If assigning astronaut A to mission M succeeds, then a second assign
request for the same (A, M) pair against the resulting store fails with a
ConflictError-class error, and returns the store unchanged — so the
assignment collection and the mission's current crew count are exactly those
produced by the first assignment. -/
theorem second_assign_is_conflict (s s2 : SysState) (mid : Int)
    (asg asg2 : CrewAssignment) (r : AssignOk)
    (h1 : assign_crew_to_mission mid asg s = (Except.ok r, s2))
    (ha : asg2.astronaut_id = asg.astronaut_id)
    (hm : asg2.mission_id = asg.mission_id) :
    ∃ e, assign_crew_to_mission mid asg2 s2 = (Except.error e, s2) ∧
      isConflictError e = true := by
  by_cases h0 : mid ≠ asg.mission_id
  · simp [assign_crew_to_mission, h0] at h1
  cases hM : lookupDb s.missions_db mid with
  | none => simp [assign_crew_to_mission, h0, hM] at h1
  | some mission =>
      cases hA : lookupDb s.astronauts_db asg.astronaut_id with
      | none => simp [assign_crew_to_mission, h0, hM, hA] at h1
      | some astronaut =>
          by_cases hact : astronaut.active = false
          · simp [assign_crew_to_mission, h0, hM, hA, hact] at h1
          by_cases hcap : mission.current_crew_count ≥ mission.crew_capacity
          · simp [assign_crew_to_mission, h0, hM, hA, hact, hcap] at h1
          by_cases hdup : (s.crew_assignments.any fun rr =>
              rr.astronaut_id == asg.astronaut_id && rr.mission_id == mid) = true
          · simp [assign_crew_to_mission, h0, hM, hA, hact, hcap, hdup] at h1
          · have hs2 : s2 = { s with
                crew_assignments := s.crew_assignments ++
                  [⟨asg.astronaut_id, mid, asg.role, astronaut.name, mission.name⟩],
                missions_db := dbSet s.missions_db mid
                  { mission with
                      current_crew_count := mission.current_crew_count + 1 } } := by
              have hsnd := congrArg Prod.snd h1
              simp [assign_crew_to_mission, h0, hM, hA, hact, hcap, hdup] at hsnd
              exact hsnd.symm
            subst hs2
            have hm2 : ¬(mid ≠ asg2.mission_id) := by rw [hm]; exact h0
            by_cases hcap2 : mission.current_crew_count + 1 ≥ mission.crew_capacity
            · refine ⟨AssignError.atCapacity mission.name, ?_, rfl⟩
              simp [assign_crew_to_mission, hm2, lookupDb_dbSet_self, ha, hA, hact, hcap2]
            · refine ⟨AssignError.alreadyAssigned astronaut.name, ?_, rfl⟩
              simp [assign_crew_to_mission, hm2, lookupDb_dbSet_self, ha, hA, hact,
                hcap2, List.any_append]

/-- Witness for `second_assign_is_conflict`: the successful assignment of
astronaut 1 to mission 1 on `stateFix`, then a second request for the same
pair (with a different role). -/
theorem second_assign_is_conflict_witness :
    ∃ e, assign_crew_to_mission 1 ⟨1, 1, CrewRole.commander⟩ stateFix2 =
        (Except.error e, stateFix2) ∧ isConflictError e = true :=
  second_assign_is_conflict stateFix stateFix2 1 ⟨1, 1, CrewRole.pilot⟩
    ⟨1, 1, CrewRole.commander⟩
    ⟨astroFix.name, missionFix.name, CrewRole.pilot, 1, 2⟩
    (by rfl) (by rfl) (by rfl)

/-! ### C2: the crew-count invariant -/

/-- Every mission held in the store has `0 ≤ current_crew_count ≤ crew_capacity`. -/
def missionInv (s : SysState) : Prop :=
  ∀ p ∈ s.missions_db,
    0 ≤ p.2.current_crew_count ∧ p.2.current_crew_count ≤ p.2.crew_capacity

theorem validateMission_ok_bounds (t : Int) (c m : Mission)
    (h : validateMission t c = Validated.ok m) :
    0 ≤ m.current_crew_count ∧ m.current_crew_count ≤ m.crew_capacity := by
  unfold validateMission at h
  split at h
  · simp at h
  · simp at h
  · dsimp only at h
    split at h
    · rename_i n de du cap cnt hname hdest hdur hcap hcnt
      have hcap2 : cap = c.crew_capacity ∧ 1 ≤ cap := by
        unfold missionCapacityField at hcap
        split_ifs at hcap ; cases hcap ; omega
      have hcnt2 : 0 ≤ cnt ∧ cnt ≤ cap := by
        rw [hcap] at hcnt
        unfold missionCountField crew_count_cannot_exceed_capacity at hcnt
        simp only [Except.toOption] at hcnt
        split_ifs at hcnt ; cases hcnt ; omega
      cases h
      exact ⟨hcnt2.1, hcnt2.2⟩
    · simp at h

theorem assign_preserves_missionInv (mid : Int) (b : CrewAssignment)
    (s : SysState) (h : missionInv s) :
    missionInv (assign_crew_to_mission mid b s).2 := by
  by_cases h0 : mid ≠ b.mission_id
  · simpa [assign_crew_to_mission, h0] using h
  cases hM : lookupDb s.missions_db mid with
  | none => simpa [assign_crew_to_mission, h0, hM] using h
  | some mission =>
      cases hA : lookupDb s.astronauts_db b.astronaut_id with
      | none => simpa [assign_crew_to_mission, h0, hM, hA] using h
      | some astronaut =>
          by_cases hact : astronaut.active = false
          · simpa [assign_crew_to_mission, h0, hM, hA, hact] using h
          by_cases hcap : mission.current_crew_count ≥ mission.crew_capacity
          · simpa [assign_crew_to_mission, h0, hM, hA, hact, hcap] using h
          by_cases hdup : (s.crew_assignments.any fun rr =>
              rr.astronaut_id == b.astronaut_id && rr.mission_id == mid) = true
          · simpa [assign_crew_to_mission, h0, hM, hA, hact, hcap, hdup] using h
          · have hbounds : 0 ≤ mission.current_crew_count ∧
                mission.current_crew_count ≤ mission.crew_capacity := by
              simpa using h _ (lookupDb_mem s.missions_db mid mission hM)
            simp only [assign_crew_to_mission, h0, if_false, hM, hA, hact, hcap, hdup]
            intro p hp
            rcases mem_dbSet s.missions_db mid
                { mission with current_crew_count := mission.current_crew_count + 1 }
                p hp with h2 | h2
            · subst h2
              dsimp only
              omega
            · exact h p h2

theorem apply_preserves_missionInv (o : Op) (s : SysState) (h : missionInv s) :
    missionInv (apply o s).2 := by
  cases o with
  | createAstronaut c =>
      cases hv : validateAstronaut c with
      | error errs => simpa [apply, hv] using h
      | ok a =>
          simp only [apply, hv, create_astronaut]
          intro p hp
          exact h p hp
  | updateAstronaut aid c =>
      cases hv : validateAstronaut c with
      | error errs => simpa [apply, hv] using h
      | ok a =>
          simp only [apply, hv, update_astronaut]
          cases hl : lookupDb s.astronauts_db aid with
          | none => exact h
          | some _ =>
              intro p hp
              exact h p hp
  | deleteAstronaut aid =>
      simp only [apply, delete_astronaut]
      cases hl : lookupDb s.astronauts_db aid with
      | none => exact h
      | some _ =>
          intro p hp
          exact h p hp
  | createMission t c =>
      cases hv : validateMission t c with
      | raised msg => simpa [apply, hv] using h
      | invalid errs => simpa [apply, hv] using h
      | ok m =>
          simp only [apply, hv, create_mission]
          intro p hp
          simp only at hp
          rcases mem_dbSet _ _ _ p hp with h2 | h2
          · subst h2
            have := validateMission_ok_bounds t c m hv
            simpa using this
          · exact h p h2
  | updateMission t mid c =>
      cases hv : validateMission t c with
      | raised msg => simpa [apply, hv] using h
      | invalid errs => simpa [apply, hv] using h
      | ok m =>
          simp only [apply, hv, update_mission]
          cases hl : lookupDb s.missions_db mid with
          | none => exact h
          | some _ =>
              intro p hp
              simp only at hp
              rcases mem_dbSet _ _ _ p hp with h2 | h2
              · subst h2
                have := validateMission_ok_bounds t c m hv
                simpa using this
              · exact h p h2
  | assignCrew pathId body =>
      cases hv : validateCrewAssignment body with
      | error errs => simpa [apply, hv] using h
      | ok b =>
          have := assign_preserves_missionInv pathId b s h
          simp only [apply, hv]
          cases hr : assign_crew_to_mission pathId b s with
          | mk res s2 =>
              cases res with
              | ok r => simpa [hr] using this
              | error e => simpa [hr] using this

/-- C2. In every state reachable from process start by any sequence of
requests, every stored mission satisfies
`0 ≤ current_crew_count ≤ crew_capacity`: the invariant holds before and
after every operation (creation, full-replacement update, crew assignment,
and the astronaut operations). -/
theorem missions_satisfy_crew_count_invariant (ops : List Op) :
    missionInv (run ops initState) := by
  have hgen : ∀ (l : List Op) (s : SysState), missionInv s → missionInv (run l s) := by
    intro l
    induction l with
    | nil => intro s hs; exact hs
    | cons o rest ih =>
        intro s hs
        exact ih _ (apply_preserves_missionInv o s hs)
  apply hgen
  intro p hp
  simp [initState] at hp

/-! ### C9: identifier counters -/

theorem assign_counters (mid : Int) (b : CrewAssignment) (s : SysState) :
    (assign_crew_to_mission mid b s).2.astronaut_id_counter = s.astronaut_id_counter ∧
      (assign_crew_to_mission mid b s).2.mission_id_counter = s.mission_id_counter := by
  by_cases h0 : mid ≠ b.mission_id
  · simp [assign_crew_to_mission, h0]
  cases hM : lookupDb s.missions_db mid with
  | none => simp [assign_crew_to_mission, h0, hM]
  | some mission =>
      cases hA : lookupDb s.astronauts_db b.astronaut_id with
      | none => simp [assign_crew_to_mission, h0, hM, hA]
      | some astronaut =>
          by_cases hact : astronaut.active = false
          · simp [assign_crew_to_mission, h0, hM, hA, hact]
          by_cases hcap : mission.current_crew_count ≥ mission.crew_capacity
          · simp [assign_crew_to_mission, h0, hM, hA, hact, hcap]
          by_cases hdup : (s.crew_assignments.any fun rr =>
              rr.astronaut_id == b.astronaut_id && rr.mission_id == mid) = true
          · simp [assign_crew_to_mission, h0, hM, hA, hact, hcap, hdup]
          · simp [assign_crew_to_mission, h0, hM, hA, hact, hcap, hdup]

theorem apply_astro_counter (o : Op) (s : SysState) :
    (apply o s).2.astronaut_id_counter =
      (match o with
       | Op.createAstronaut c =>
           (match validateAstronaut c with
            | Except.ok _ => s.astronaut_id_counter + 1
            | Except.error _ => s.astronaut_id_counter)
       | _ => s.astronaut_id_counter) := by
  cases o with
  | createAstronaut c =>
      cases hv : validateAstronaut c <;> simp [apply, hv, create_astronaut]
  | updateAstronaut aid c =>
      cases hv : validateAstronaut c with
      | error e => simp [apply, hv]
      | ok a =>
          simp only [apply, hv, update_astronaut]
          cases hl : lookupDb s.astronauts_db aid <;> simp [hl]
  | deleteAstronaut aid =>
      simp only [apply, delete_astronaut]
      cases hl : lookupDb s.astronauts_db aid <;> simp [hl]
  | createMission t c =>
      cases hv : validateMission t c <;> simp [apply, hv, create_mission]
  | updateMission t mid c =>
      cases hv : validateMission t c with
      | raised m => simp [apply, hv]
      | invalid e => simp [apply, hv]
      | ok m =>
          simp only [apply, hv, update_mission]
          cases hl : lookupDb s.missions_db mid <;> simp [hl]
  | assignCrew pid b =>
      cases hv : validateCrewAssignment b with
      | error e => simp [apply, hv]
      | ok b2 =>
          have hcnt := (assign_counters pid b2 s).1
          simp only [apply, hv]
          cases hr : assign_crew_to_mission pid b2 s with
          | mk res s2 =>
              rw [hr] at hcnt
              cases res <;> simpa using hcnt

theorem apply_mission_counter (o : Op) (s : SysState) :
    (apply o s).2.mission_id_counter =
      (match o with
       | Op.createMission t c =>
           (match validateMission t c with
            | Validated.ok _ => s.mission_id_counter + 1
            | _ => s.mission_id_counter)
       | _ => s.mission_id_counter) := by
  cases o with
  | createAstronaut c =>
      cases hv : validateAstronaut c <;> simp [apply, hv, create_astronaut]
  | updateAstronaut aid c =>
      cases hv : validateAstronaut c with
      | error e => simp [apply, hv]
      | ok a =>
          simp only [apply, hv, update_astronaut]
          cases hl : lookupDb s.astronauts_db aid <;> simp [hl]
  | deleteAstronaut aid =>
      simp only [apply, delete_astronaut]
      cases hl : lookupDb s.astronauts_db aid <;> simp [hl]
  | createMission t c =>
      cases hv : validateMission t c <;> simp [apply, hv, create_mission]
  | updateMission t mid c =>
      cases hv : validateMission t c with
      | raised m => simp [apply, hv]
      | invalid e => simp [apply, hv]
      | ok m =>
          simp only [apply, hv, update_mission]
          cases hl : lookupDb s.missions_db mid <;> simp [hl]
  | assignCrew pid b =>
      cases hv : validateCrewAssignment b with
      | error e => simp [apply, hv]
      | ok b2 =>
          have hcnt := (assign_counters pid b2 s).2
          simp only [apply, hv]
          cases hr : assign_crew_to_mission pid b2 s with
          | mk res s2 =>
              rw [hr] at hcnt
              cases res <;> simpa using hcnt

theorem astroIds_exact : ∀ (ops : List Op) (s : SysState),
    ∃ k : Nat, astroIdsAssigned ops s = intRange s.astronaut_id_counter k ∧
      (run ops s).astronaut_id_counter = s.astronaut_id_counter + k := by
  intro ops
  induction ops with
  | nil =>
      intro s
      exact ⟨0, by simp [astroIdsAssigned, intRange], by simp [run]⟩
  | cons o rest ih =>
      intro s
      have hrunfold : astroIdsAssigned (o :: rest) s =
          (match o, (apply o s).1 with
           | Op.createAstronaut _, Resp.astronautRec a =>
               (match a.id with
                | some i => [i]
                | none => [])
           | _, _ => []) ++ astroIdsAssigned rest (apply o s).2 := rfl
      have hrun : run (o :: rest) s = run rest (apply o s).2 := rfl
      obtain ⟨k, h1, h2⟩ := ih (apply o s).2
      have hctr := apply_astro_counter o s
      cases o with
      | createAstronaut c =>
          cases hv : validateAstronaut c with
          | error errs =>
              refine ⟨k, ?_, ?_⟩
              · rw [hrunfold, h1]
                simp [apply, hv]
              · rw [hrun, h2]
                simp [apply, hv]
          | ok a =>
              refine ⟨k + 1, ?_, ?_⟩
              · rw [hrunfold, h1, hctr]
                simp only [hv]
                have happ : (apply (Op.createAstronaut c) s).1 =
                    Resp.astronautRec { a with id := some s.astronaut_id_counter } := by
                  simp [apply, hv, create_astronaut]
                rw [happ]
                simp [intRange]
              · rw [hrun, h2, hctr]
                simp only [hv]
                omega
      | updateAstronaut aid c =>
          exact ⟨k, by rw [hrunfold, h1, hctr]; simp, by rw [hrun, h2, hctr]⟩
      | deleteAstronaut aid =>
          exact ⟨k, by rw [hrunfold, h1, hctr]; simp, by rw [hrun, h2, hctr]⟩
      | createMission t c =>
          exact ⟨k, by rw [hrunfold, h1, hctr]; simp, by rw [hrun, h2, hctr]⟩
      | updateMission t mid c =>
          exact ⟨k, by rw [hrunfold, h1, hctr]; simp, by rw [hrun, h2, hctr]⟩
      | assignCrew pid b =>
          exact ⟨k, by rw [hrunfold, h1, hctr]; simp, by rw [hrun, h2, hctr]⟩

theorem missionIds_exact : ∀ (ops : List Op) (s : SysState),
    ∃ k : Nat, missionIdsAssigned ops s = intRange s.mission_id_counter k ∧
      (run ops s).mission_id_counter = s.mission_id_counter + k := by
  intro ops
  induction ops with
  | nil =>
      intro s
      exact ⟨0, by simp [missionIdsAssigned, intRange], by simp [run]⟩
  | cons o rest ih =>
      intro s
      have hrunfold : missionIdsAssigned (o :: rest) s =
          (match o, (apply o s).1 with
           | Op.createMission _ _, Resp.missionRec m =>
               (match m.id with
                | some i => [i]
                | none => [])
           | _, _ => []) ++ missionIdsAssigned rest (apply o s).2 := rfl
      have hrun : run (o :: rest) s = run rest (apply o s).2 := rfl
      obtain ⟨k, h1, h2⟩ := ih (apply o s).2
      have hctr := apply_mission_counter o s
      cases o with
      | createMission t c =>
          cases hv : validateMission t c with
          | raised msg =>
              refine ⟨k, ?_, ?_⟩
              · rw [hrunfold, h1, hctr]
                simp [apply, hv]
              · rw [hrun, h2, hctr]
                simp [hv]
          | invalid errs =>
              refine ⟨k, ?_, ?_⟩
              · rw [hrunfold, h1, hctr]
                simp [apply, hv]
              · rw [hrun, h2, hctr]
                simp [hv]
          | ok m =>
              refine ⟨k + 1, ?_, ?_⟩
              · rw [hrunfold, h1, hctr]
                simp only [hv]
                have happ : (apply (Op.createMission t c) s).1 =
                    Resp.missionRec { m with id := some s.mission_id_counter } := by
                  simp [apply, hv, create_mission]
                rw [happ]
                simp [intRange]
              · rw [hrun, h2, hctr]
                simp only [hv]
                omega
      | createAstronaut c =>
          exact ⟨k, by rw [hrunfold, h1, hctr]; simp, by rw [hrun, h2, hctr]⟩
      | updateAstronaut aid c =>
          exact ⟨k, by rw [hrunfold, h1, hctr]; simp, by rw [hrun, h2, hctr]⟩
      | deleteAstronaut aid =>
          exact ⟨k, by rw [hrunfold, h1, hctr]; simp, by rw [hrun, h2, hctr]⟩
      | updateMission t mid c =>
          exact ⟨k, by rw [hrunfold, h1, hctr]; simp, by rw [hrun, h2, hctr]⟩
      | assignCrew pid b =>
          exact ⟨k, by rw [hrunfold, h1, hctr]; simp, by rw [hrun, h2, hctr]⟩

/-- C9. Along every request trace from process start, the astronaut
identifiers handed out by create operations are exactly `1, 2, ..., ka` in
order, and the mission identifiers are exactly `1, 2, ..., km`: each kind is
numbered by its own monotonically increasing counter starting at 1, every
new identifier is strictly greater than every identifier previously assigned
for that kind, and an identifier is never handed out twice — in particular
never reassigned after a delete. -/
theorem identifiers_monotone_from_one (ops : List Op) :
    ∃ ka km : Nat,
      astroIdsAssigned ops initState = intRange 1 ka ∧
      missionIdsAssigned ops initState = intRange 1 km ∧
      (astroIdsAssigned ops initState).Pairwise (· < ·) ∧
      (missionIdsAssigned ops initState).Pairwise (· < ·) := by
  obtain ⟨ka, ha1, ha2⟩ := astroIds_exact ops initState
  obtain ⟨km, hm1, hm2⟩ := missionIds_exact ops initState
  refine ⟨ka, km, ha1, hm1, ?_, ?_⟩
  · rw [ha1]
    exact intRange_pairwise _ _
  · rw [hm1]
    exact intRange_pairwise _ _

/-! ### C10: the body id field is ignored on create -/

theorem validateAstronaut_id (c : Astronaut) (v : Option Int) :
    validateAstronaut { c with id := v } =
      (validateAstronaut c).map (fun r => { r with id := v }) := by
  unfold validateAstronaut
  dsimp only
  generalize astronautNameField c.name = nR
  generalize astronautAgeField c.age = aR
  generalize astronautEmailField c.email = eR
  generalize astronautExperienceField c.years_of_experience aR.toOption = xR
  cases nR <;> cases aR <;> cases eR <;> cases xR <;> simp [Except.map]

theorem validateMission_id (t : Int) (c : Mission) (v : Option Int) :
    validateMission t { c with id := v } =
      (match validateMission t c with
       | Validated.ok m => Validated.ok { m with id := v }
       | other => other) := by
  unfold validateMission
  dsimp only
  cases hl : launch_date_must_be_future c.launch_date t with
  | raised m => rfl
  | valueError m => rfl
  | ok ld =>
      dsimp only
      generalize missionNameField c.name = nR
      generalize missionDestinationField c.destination = dR
      generalize missionDurationField c.duration_days = duR
      generalize missionCapacityField c.crew_capacity = capR
      generalize missionCountField c.current_crew_count capR.toOption = cntR
      cases nR <;> cases dR <;> cases duR <;> cases capR <;> cases cntR <;> simp

/-- C10. On create, any identifier supplied in the body is ignored: the
response and the new store are identical whatever the body's id field holds,
and a successful create returns a record whose id is the pre-request counter
value, stored in the repository under that same identifier. -/
theorem create_ignores_body_id :
    (∀ (c : Astronaut) (s : SysState) (v : Option Int),
        apply (Op.createAstronaut { c with id := v }) s =
          apply (Op.createAstronaut { c with id := none }) s) ∧
    (∀ (c : Astronaut) (s : SysState) (a : Astronaut) (s2 : SysState),
        apply (Op.createAstronaut c) s = (Resp.astronautRec a, s2) →
          a.id = some s.astronaut_id_counter ∧
          lookupDb s2.astronauts_db s.astronaut_id_counter = some a) ∧
    (∀ (t : Int) (c : Mission) (s : SysState) (v : Option Int),
        apply (Op.createMission t { c with id := v }) s =
          apply (Op.createMission t { c with id := none }) s) ∧
    (∀ (t : Int) (c : Mission) (s : SysState) (m : Mission) (s2 : SysState),
        apply (Op.createMission t c) s = (Resp.missionRec m, s2) →
          m.id = some s.mission_id_counter ∧
          lookupDb s2.missions_db s.mission_id_counter = some m) := by
  refine ⟨?_, ?_, ?_, ?_⟩
  · intro c s v
    simp only [apply, validateAstronaut_id]
    cases hv : validateAstronaut c with
    | error e => simp [Except.map]
    | ok a => simp [Except.map, create_astronaut]
  · intro c s a s2 h
    cases hv : validateAstronaut c with
    | error e => simp [apply, hv] at h
    | ok r =>
        simp only [apply, hv, create_astronaut, Prod.mk.injEq,
          Resp.astronautRec.injEq] at h
        obtain ⟨h1, h2⟩ := h
        subst h1
        subst h2
        exact ⟨rfl, lookupDb_dbSet_self _ _ _⟩
  · intro t c s v
    simp only [apply, validateMission_id]
    cases hv : validateMission t c with
    | raised m => simp
    | invalid e => simp
    | ok m => simp [create_mission]
  · intro t c s m s2 h
    cases hv : validateMission t c with
    | raised msg => simp [apply, hv] at h
    | invalid e => simp [apply, hv] at h
    | ok m0 =>
        simp only [apply, hv, create_mission, Prod.mk.injEq,
          Resp.missionRec.injEq] at h
        obtain ⟨h1, h2⟩ := h
        subst h1
        subst h2
        exact ⟨rfl, lookupDb_dbSet_self _ _ _⟩

/-- The Sarah Connor candidate record (models.py example), without an id. -/
def sarahCand : Astronaut :=
  ⟨none, ("Sarah Connor").toList, 35, ("sarah.connor@nasa.space").toList,
    Specialization.pilot, 12, true⟩

/-- The store after creating `sarahCand` in the initial state. -/
def stateAfterCreate : SysState := ⟨[(1, astroFix)], [], [], 2, 1⟩

/-- Witness for `create_ignores_body_id`: creating the example astronaut with
a bogus body id 99 equals creating it with no id, and the stored and
returned identifier is the counter value 1. -/
theorem create_ignores_body_id_witness :
    (apply (Op.createAstronaut { sarahCand with id := some 99 }) initState =
        apply (Op.createAstronaut { sarahCand with id := none }) initState) ∧
      (astroFix.id = some 1 ∧
        lookupDb stateAfterCreate.astronauts_db 1 = some astroFix) :=
  ⟨create_ignores_body_id.1 sarahCand initState (some 99),
    create_ignores_body_id.2.1 sarahCand initState astroFix stateAfterCreate (by rfl)⟩

/-! ### C5: the launch-date check is not total -/

/-- A mission candidate whose every field is well typed and within bounds,
with a timezone-aware launch timestamp far in the future. -/
def awareLaunchMission : Mission :=
  ⟨none, ("Mars Odyssey").toList, ("Mars").toList, 180, MissionStatus.planning,
    some ⟨1893456000000000, true⟩, 6, 0⟩

/-- C5 fails on the code: validating a well-typed mission whose launch
timestamp is offset-aware does not accept and does not report a constraint
violation — the launch-date check compares the value against the offset-naive
`datetime.now()` and raises `TypeError`, which Pydantic v2 does not convert
into a validation error. -/
theorem aware_launch_date_raises :
    validateMission 0 awareLaunchMission =
      Validated.raised
        ("TypeError: cannot compare offset-naive and offset-aware datetimes") := by
  rfl

/-! ### C8: the launch-date boundary -/

/-- A mission candidate whose launch timestamp equals the validation time
`1000` (and is offset-naive, like `datetime.now()`). -/
def equalLaunchMission : Mission :=
  ⟨none, ("Mars Odyssey").toList, ("Mars").toList, 180, MissionStatus.planning,
    some (pyNow 1000), 6, 0⟩

/-- C8 as stated is false: a launch timestamp exactly equal to the validation
time is accepted, because the check rejects only `v < datetime.now()`. -/
theorem launch_equal_to_now_accepted :
    validateMission 1000 equalLaunchMission =
      Validated.ok
        ⟨none, ("Mars Odyssey").toList, ("Mars").toList, 180,
          MissionStatus.planning, some (pyNow 1000), 6, 0⟩ := by
  rfl

/-- C8 amended. For an offset-naive launch timestamp, the launch-date check
accepts exactly the timestamps not strictly earlier than the validation time
(so a timestamp equal to the validation time is accepted), and reports the
constraint violation exactly for timestamps strictly earlier. -/
theorem launch_date_check_exact (d : PyDatetime) (nowT : Int)
    (h : d.aware = false) :
    (launch_date_must_be_future (some d) nowT = PyResult.ok (some d) ↔
        nowT ≤ d.t) ∧
    (launch_date_must_be_future (some d) nowT =
        PyResult.valueError ("Launch date must be in the future") ↔
        d.t < nowT) := by
  by_cases hlt : d.t < nowT <;>
    simp [launch_date_must_be_future, pyDatetimeLt, pyNow, h, hlt] ; omega

/-- Witness for `launch_date_check_exact` at the naive timestamp 500 with
validation time 1000. -/
theorem launch_date_check_exact_witness :
    (launch_date_must_be_future (some ⟨500, false⟩) 1000 =
        PyResult.ok (some ⟨500, false⟩) ↔ (1000 : Int) ≤ 500) ∧
    (launch_date_must_be_future (some ⟨500, false⟩) 1000 =
        PyResult.valueError ("Launch date must be in the future") ↔
        (500 : Int) < 1000) :=
  launch_date_check_exact ⟨500, false⟩ 1000 rfl

/-! ### C6: the experience-versus-age invariant -/

/-- A candidate violating `years_of_experience ≤ age − 18` (10 > 20 − 18)
whose age is itself out of range. -/
def underageCand : Astronaut :=
  ⟨none, ("Kyle Reese").toList, 20, ("kyle@res.org").toList,
    Specialization.pilot, 10, true⟩

/-- C6 as stated is false: this candidate violates the experience-versus-age
invariant and is rejected, but the validation error names only the `age`
field — `info.data.get('age')` is `None` when the age field failed, so the
experience check is skipped and no error names `years_of_experience`. -/
theorem experience_violation_not_named :
    underageCand.years_of_experience > underageCand.age - 18 ∧
    validateAstronaut underageCand =
      Except.error [⟨"age", "Input should be greater than or equal to 21"⟩] ∧
    ¬(("years_of_experience" : String) ∈
        ([(⟨"age", "Input should be greater than or equal to 21"⟩ : FieldError)]).map
          FieldError.field) := by
  refine ⟨by decide, by rfl, by decide⟩

theorem astronautAgeField_ok (v a : Int) (h : astronautAgeField v = Except.ok a) :
    a = v ∧ 21 ≤ a ∧ a ≤ 65 := by
  unfold astronautAgeField at h
  split_ifs at h ; cases h ; omega

/-- C6 amended. Every candidate accepted by validation satisfies
`years_of_experience ≤ age − 18`; and every candidate whose age field is
itself within bounds (21–65) but which violates the invariant is rejected
with a validation error naming the `years_of_experience` field. (When the
age field is out of bounds, the candidate is still rejected, but the error
need not name `years_of_experience`.) -/
theorem experience_age_invariant :
    (∀ (c r : Astronaut), validateAstronaut c = Except.ok r →
        r.years_of_experience ≤ r.age - 18) ∧
    (∀ c : Astronaut, 21 ≤ c.age → c.age ≤ 65 →
        c.years_of_experience > c.age - 18 →
        ∃ errs, validateAstronaut c = Except.error errs ∧
          ("years_of_experience" : String) ∈ errs.map FieldError.field) := by
  constructor
  · intro c r h
    unfold validateAstronaut at h
    dsimp only at h
    split at h
    · rename_i n a e x hn hg he hx
      obtain ⟨ha1, ha2, ha3⟩ := astronautAgeField_ok c.age a hg
      rw [hg] at hx
      unfold astronautExperienceField experience_must_be_reasonable_for_age at hx
      simp only [Except.toOption] at hx
      split_ifs at hx ; cases hx ; cases h ; dsimp only ; omega
    · simp at h
  · intro c h21 h65 hviol
    have hage : astronautAgeField c.age = Except.ok c.age := by
      unfold astronautAgeField
      rw [if_neg (by omega), if_neg (by omega)]
    have hexp : ∃ msg, astronautExperienceField c.years_of_experience
        (astronautAgeField c.age).toOption = Except.error msg := by
      rw [hage]
      unfold astronautExperienceField experience_must_be_reasonable_for_age
      simp only [Except.toOption]
      by_cases g1 : c.years_of_experience < 0
      · exact ⟨_, by rw [if_pos g1]⟩
      by_cases g2 : c.years_of_experience > 40
      · rw [if_neg g1, if_pos g2]
        exact ⟨_, rfl⟩
      · rw [if_neg g1, if_neg g2]
        rw [if_pos ⟨by omega, hviol⟩]
        exact ⟨_, rfl⟩
    obtain ⟨msg, hexpe⟩ := hexp
    rw [hage] at hexpe
    have hres : validateAstronaut c = Except.error
        (errsOf ("name") (astronautNameField c.name) ++
          errsOf ("age") (astronautAgeField c.age) ++
          errsOf ("email") (astronautEmailField c.email) ++
          [⟨"years_of_experience", msg⟩]) := by
      cases hn : astronautNameField c.name <;>
        cases he : astronautEmailField c.email <;>
          simp [validateAstronaut, hn, hage, he, hexpe, errsOf]
    exact ⟨_, hres, by simp [errsOf]⟩

/-- Witness for `experience_age_invariant`: the spec scenario — age 35 with
25 years of experience (25 > 35 − 18 = 17) is rejected with an error naming
`years_of_experience`. -/
theorem experience_age_invariant_witness :
    ∃ errs, validateAstronaut { sarahCand with years_of_experience := 25 } =
        Except.error errs ∧
      ("years_of_experience" : String) ∈ errs.map FieldError.field :=
  experience_age_invariant.2 { sarahCand with years_of_experience := 25 }
    (by decide) (by decide) (by decide)

/-! ### C7: the stored name -/

/-- A candidate whose submitted name is a single letter padded with spaces:
3 characters, so it passes the 2 to 100 length bound, which Pydantic applies
to the submitted value before the validator strips it. -/
def paddedNameCand : Astronaut :=
  ⟨none, (" A ").toList, 30, ("a@b.c").toList, Specialization.pilot, 5, true⟩

/-- C7 as stated is false: this candidate is accepted and the stored name is
the single character A — the trimmed form has only 1 character, below the
claimed 2-character minimum, because the length bound is checked on the
submitted name before trimming. -/
theorem stored_name_single_char :
    validateAstronaut paddedNameCand =
      Except.ok ⟨none, [('A' : Char)], 30, ("a@b.c").toList,
        Specialization.pilot, 5, true⟩ ∧
    ¬(2 ≤ ([('A' : Char)] : List Char).length) := by
  refine ⟨by rfl, by decide⟩

/-- C7 amended. For every accepted crew member candidate, the stored name is
the trimmed form of the submitted name and contains no digits; the 2 to 100
character bound holds of the **submitted** name, so the stored name has at
most 100 characters but can be shorter than 2. -/
theorem stored_name_normalized (c r : Astronaut)
    (h : validateAstronaut c = Except.ok r) :
    r.name = pyStrip c.name ∧
    r.name.any Char.isDigit = false ∧
    r.name.length ≤ 100 ∧
    2 ≤ c.name.length ∧ c.name.length ≤ 100 := by
  unfold validateAstronaut at h
  dsimp only at h
  split at h
  · rename_i n a e x hn hg he hx
    unfold astronautNameField name_must_not_contain_numbers at hn
    split_ifs at hn with g1 g2 g3
    cases hn
    cases h
    refine ⟨rfl, ?_, ?_, by omega, by omega⟩
    · cases hd : (pyStrip c.name).any Char.isDigit
      · rfl
      · obtain ⟨ch, hch, hdig⟩ := List.any_eq_true.mp hd
        exact absurd (List.any_eq_true.mpr ⟨ch, mem_pyStrip _ _ hch, hdig⟩) g3
    · calc (pyStrip c.name).length ≤ c.name.length := pyStrip_length_le _
        _ ≤ 100 := by omega
  · simp at h

/-- Witness for `stored_name_normalized` at the accepted example record. -/
theorem stored_name_normalized_witness :
    sarahCand.name = pyStrip sarahCand.name ∧
    sarahCand.name.any Char.isDigit = false ∧
    sarahCand.name.length ≤ 100 ∧
    2 ≤ sarahCand.name.length ∧ sarahCand.name.length ≤ 100 :=
  stored_name_normalized sarahCand sarahCand (by rfl)

end MissionControl
